import Mathlib

/-!
Verification of the model-versioning and change-trace ingestion core of the
Excel add-in repository.

The producer-side components are translated from
`src/excel_addin/src/commands/commands.js` (background script: range
matching, trace delivery, offline queue) and from the API client in
`src/unnamed/part_005` (`domino-api-v2.js`: `fetchWithTimeout`,
`upsertModel`, `loadModel`, `createModelTrace`, `createModelTraceBatch`).

The backend store handlers (`backend/main.py` referenced by the repository
documentation) are not part of the source tree; only their SQL schemas
(`init-db.sql`, `database_schema.sql`) and clients are.  The store-side
operations are therefore modelled from the specification and are marked as
such in their doc comments.
-/

set_option maxRecDepth 4000

/-- Boolean test that the list `pat` is an initial segment of `l`
(the comparison underlying the substring test). -/
def listStartsWith {α : Type} [DecidableEq α] : List α → List α → Bool
  | _, [] => true
  | [], _ :: _ => false
  | a :: as, b :: bs => if a = b then listStartsWith as bs else false

/-- Boolean substring test on lists: `listIncludes l pat` is true iff `pat`
occurs contiguously inside `l`.  This is the semantics of JavaScript
`String.prototype.includes` specialised to exact code points. -/
def listIncludes {α : Type} [DecidableEq α] : List α → List α → Bool
  | [], pat => pat.isEmpty
  | a :: as, pat => listStartsWith (a :: as) pat || listIncludes as pat

/-- JavaScript `s.includes(pat)`: `pat` occurs as a contiguous substring of `s`. -/
def jsIncludes (s pat : String) : Bool :=
  listIncludes s.data pat.data

/-- Mathematical characterisation of one list occurring contiguously inside
another: `pat` occurs in `l` iff `l` splits as `pre ++ pat ++ post`. -/
def SubstringOf {α : Type} (pat l : List α) : Prop :=
  ∃ pre post, l = pre ++ pat ++ post

/-- `SubstringOf` lifted to strings (on their code-point lists). -/
def SubstringOfStr (pat s : String) : Prop :=
  SubstringOf pat.data s.data

/-- A tracked range as carried by `modelConfig.tracked_ranges` in
`commands.js` and stored by the backend: a user-assigned name together with
an address expression such as `Sheet1!A1:D10`. -/
structure TrackedRange where
  name : String
  range : String
deriving DecidableEq, Repr

/-- The matching predicate of `findTrackedRange` in `commands.js`:
`address.includes(tr.range) || tr.range.includes(address)`. -/
def trMatches (address : String) (tr : TrackedRange) : Bool :=
  jsIncludes address tr.range || jsIncludes tr.range address

/-- `findTrackedRange` from `commands.js`: the first tracked range in list
order whose address string textually contains the changed address or is
textually contained in it; `none` when no range matches (this also covers
the shortcut taken when no model is configured, which returns null). -/
def findTrackedRange (address : String) (tracked_ranges : List TrackedRange) :
    Option TrackedRange :=
  tracked_ranges.find? (trMatches address)

/-- The specification-level match relation for `findTrackedRange`: the
tracked range's address is a textual substring of the changed address, or
the changed address is a textual substring of the tracked range's address. -/
def RangeMatchSpec (address : String) (tr : TrackedRange) : Prop :=
  SubstringOfStr tr.range address ∨ SubstringOfStr address tr.range

/-- The tracked-range list of testable property P6. -/
def p6Ranges : List TrackedRange :=
  [{ name := "A", range := "Sheet1!A1:A5" }, { name := "B", range := "Sheet1!B1:B5" }]

/-- A cell value as carried in a trace: the JavaScript payload is dynamic
(string, number, boolean, or a 2-D array mirroring a multi-cell range) and
is stored by the backend without interpretation. -/
inductive CellValue where
  | str (s : String)
  | num (n : Int)
  | boolean (b : Bool)
  | grid (rows : List (List CellValue))

/-- The body of a `POST /wb/create-model-trace` request, as assembled by
`handleCellChange` in `commands.js`. -/
structure TraceData where
  model_id : String
  timestamp : String
  tracked_range_name : String
  username : String
  value : CellValue

/-- An entry of the producer's offline queue: `queueTraceLocally` spreads
the trace data and adds a `queuedAt` timestamp. -/
structure QueuedTrace where
  data : TraceData
  queuedAt : String

/-- The module-level mutable state of `commands.js` that the offline
delivery logic reads and writes: `traceQueue` and `isOnline`. -/
structure ProducerState where
  traceQueue : List QueuedTrace
  isOnline : Bool

/-- The settled outcome of one JavaScript `fetch` call: either a response
with an HTTP status and a parsed body, or a rejection (network error). -/
inductive TransportResult (α : Type) where
  | response (status : Nat) (body : α)
  | failure

/-- One pending network interaction: how the fetch would settle, and after
how many milliseconds it settles. -/
structure Transport (α : Type) where
  result : TransportResult α
  duration : Nat

/-- `response.ok` in the Fetch API: status in the inclusive range 200-299. -/
def responseOk (status : Nat) : Bool :=
  200 ≤ status && status ≤ 299

/-- `API_TIMEOUT` from the API client `domino-api-v2.js`: 10 seconds. -/
def API_TIMEOUT : Nat := 10000

/-- `fetchWithTimeout` from `domino-api-v2.js`: races the fetch against a
rejection fired after `timeout` milliseconds, so a call that has not
settled by the deadline is seen as a failure. -/
def fetchWithTimeout {α : Type} (t : Transport α) (timeout : Nat) :
    TransportResult α :=
  if timeout ≤ t.duration then TransportResult.failure else t.result

/-- A workbook model as exchanged on the wire and persisted by the store:
`{model_name, tracked_ranges, model_id, version}`. -/
structure WorkbookModel where
  model_id : String
  model_name : String
  tracked_ranges : List TrackedRange
  version : Nat
deriving DecidableEq, Repr

/-- The `{success: bool}` body answered by the trace endpoints. -/
structure TraceResponse where
  success : Bool
deriving DecidableEq, Repr

/-- `upsertModel` from `domino-api-v2.js`: fetch with the 10-second
timeout; a non-ok response or a transport failure is rethrown to the
caller (`Except.error`), an ok response yields the parsed model. -/
def upsertModelApi (t : Transport WorkbookModel) : Except Unit WorkbookModel :=
  match fetchWithTimeout t API_TIMEOUT with
  | TransportResult.failure => Except.error ()
  | TransportResult.response status body =>
    if responseOk status then Except.ok body else Except.error ()

/-- `loadModel` from `domino-api-v2.js`: fetch with the 10-second timeout;
a 404 returns null, a non-ok response throws and the catch block returns
null, a transport failure returns null, an ok response yields the model.
`loadModelFromBackend` in `commands.js` has the same outcome shape. -/
def loadModel (t : Transport WorkbookModel) : Option WorkbookModel :=
  match fetchWithTimeout t API_TIMEOUT with
  | TransportResult.failure => none
  | TransportResult.response status body =>
    if status = 404 then none
    else if responseOk status then some body
    else none

/-- `createModelTrace` from `domino-api-v2.js`: a plain `fetch` with no
timeout race; a non-ok response or transport failure yields
`{success: false}`, an ok response yields the parsed body. -/
def createModelTrace (t : Transport TraceResponse) : TraceResponse :=
  match t.result with
  | TransportResult.failure => { success := false }
  | TransportResult.response status body =>
    if responseOk status then body else { success := false }

/-- `createModelTraceBatch` from `domino-api-v2.js`: like
`createModelTrace` but through `fetchWithTimeout`. -/
def createModelTraceBatch (t : Transport TraceResponse) : TraceResponse :=
  match fetchWithTimeout t API_TIMEOUT with
  | TransportResult.failure => { success := false }
  | TransportResult.response status body =>
    if responseOk status then body else { success := false }

/-- `queueTraceLocally` from `commands.js`: push the trace (with a
`queuedAt` stamp) onto `traceQueue`, then if the queue length exceeds 100
shift off the oldest entry. -/
def queueTraceLocally (q : List QueuedTrace) (traceData : TraceData)
    (now : String) : List QueuedTrace :=
  let q1 := q ++ [{ data := traceData, queuedAt := now }]
  if q1.length > 100 then q1.tail else q1

/-- Repeated enqueueing: feed a sequence of (trace, enqueue-time) pairs
through `queueTraceLocally`. -/
def enqueueAll (q : List QueuedTrace) : List (TraceData × String) → List QueuedTrace
  | [] => q
  | (t, now) :: rest => enqueueAll (queueTraceLocally q t now) rest

/-- The queue entry produced by one enqueue step. -/
def mkQueued (p : TraceData × String) : QueuedTrace :=
  { data := p.1, queuedAt := p.2 }

/-- `flushTraceQueue` from `commands.js`, as a function of the state and of
how the batch delivery fetch settles.  Returns whether a delivery was
attempted together with the new state.  The guard returns immediately when
the queue is empty or `isOnline` is false; otherwise the queue is drained
into `traces`, and on a non-ok response or a transport failure the drained
records are re-enqueued in front (`traces.concat(traceQueue)`), a
transport failure additionally setting `isOnline` to false. -/
def flushTraceQueue (st : ProducerState) (r : TransportResult Unit) :
    Bool × ProducerState :=
  if st.traceQueue.length = 0 ∨ st.isOnline = false then
    (false, st)
  else
    let traces := st.traceQueue
    let st1 : ProducerState := { st with traceQueue := [] }
    match r with
    | TransportResult.failure =>
      (true, { traceQueue := traces ++ st1.traceQueue, isOnline := false })
    | TransportResult.response status _ =>
      if responseOk status then (true, st1)
      else (true, { st1 with traceQueue := traces ++ st1.traceQueue })

/-- The change entries of a `POST /wb/create-model-trace-batch` body. -/
structure BatchChange where
  tracked_range_name : String
  value : CellValue

/-- The body of the batch request built inside `flushTraceQueue`: the
drained records projected to `{tracked_range_name, value}`, one timestamp
taken at flush time, and the producer's current username. -/
structure BatchPayload where
  model_id : String
  timestamp : String
  changes : List BatchChange
  username : String

/-- The projection applied to each queued trace when `flushTraceQueue`
builds the batch body: only the range name and the value survive. -/
def batchChangeOf (t : QueuedTrace) : BatchChange :=
  { tracked_range_name := t.data.tracked_range_name, value := t.data.value }

/-- The batch body assembled by `flushTraceQueue` in `commands.js`. -/
def flushBatchPayload (modelId : String) (now : String) (user : String)
    (traces : List QueuedTrace) : BatchPayload :=
  { model_id := modelId, timestamp := now,
    changes := traces.map batchChangeOf, username := user }

/-- `createTrace` from `commands.js`, as a function of the state, the trace
being delivered, the wall clock (for a possible enqueue stamp), how the
fetch settles, and how the eager flush's own fetch would settle.  An ok
response sets `isOnline` to true, triggers `flushTraceQueue`, and returns
true; a non-ok response returns false with the state untouched; a
transport failure sets `isOnline` to false, queues the trace locally, and
returns false. -/
def createTrace (st : ProducerState) (traceData : TraceData) (now : String)
    (r : TransportResult Unit) (flushR : TransportResult Unit) :
    Bool × ProducerState :=
  match r with
  | TransportResult.response status _ =>
    if responseOk status then
      let st1 : ProducerState := { st with isOnline := true }
      (true, (flushTraceQueue st1 flushR).2)
    else
      (false, st)
  | TransportResult.failure =>
    (false, { traceQueue := queueTraceLocally st.traceQueue traceData now,
              isOnline := false })

/-- The server-side model store: one row of `workbook_model` per
`model_id`, in insertion order. -/
abbrev ModelStore : Type := List WorkbookModel

/-- Lookup of a `workbook_model` row by primary key. -/
def ModelStore.findModel (store : ModelStore) (mid : String) :
    Option WorkbookModel :=
  store.find? (fun m => m.model_id = mid)

/-- The body of a `PUT /wb/upsert-model` request. -/
structure UpsertRequest where
  model_name : String
  tracked_ranges : List TrackedRange
  model_id : Option String
  version : Option Nat
deriving DecidableEq

/-- Modelled from the spec: the backend upsert-model handler
(`backend/main.py`, absent from the source tree; only its SQL schema and
its clients are present).  If no `model_id` is supplied a fresh identifier
is used and the model is created at version 1; if the supplied `model_id`
has no row yet the model is created at version 1 under that id; if a row
exists, the caller-supplied `version` is ignored, `model_name` and
`tracked_ranges` are replaced wholesale, and `version` becomes
`existing.version + 1`. -/
def ModelStore.upsert (store : ModelStore) (req : UpsertRequest)
    (freshId : String) : WorkbookModel × ModelStore :=
  let mid := req.model_id.getD freshId
  match ModelStore.findModel store mid with
  | none =>
    let m : WorkbookModel :=
      { model_id := mid, model_name := req.model_name,
        tracked_ranges := req.tracked_ranges, version := 1 }
    (m, store ++ [m])
  | some existing =>
    let m : WorkbookModel :=
      { model_id := mid, model_name := req.model_name,
        tracked_ranges := req.tracked_ranges,
        version := existing.version + 1 }
    (m, store.map (fun x => if x.model_id = mid then m else x))

/-- The payload of one upsert call in a sequence against a fixed
`model_id`: name, ranges, and the caller-supplied version field. -/
structure UpsertPayload where
  model_name : String
  tracked_ranges : List TrackedRange
  version : Option Nat
deriving DecidableEq

/-- Run a sequence of upsert-model calls against one `model_id`, collecting
the returned `version` values and threading the store. -/
def runUpserts (store : ModelStore) (mid : String) :
    List UpsertPayload → List Nat × ModelStore
  | [] => ([], store)
  | p :: ps =>
    let step := ModelStore.upsert store
      { model_name := p.model_name, tracked_ranges := p.tracked_ranges,
        model_id := some mid, version := p.version } "unused-fresh-id"
    let rest := runUpserts step.2 mid ps
    (step.1.version :: rest.1, rest.2)

/-- The version currently stored for `mid`, if any. -/
def verOf (store : ModelStore) (mid : String) : Option Nat :=
  (ModelStore.findModel store mid).map (fun m => m.version)

/-- One row of `workbook_trace`: a store-assigned id and the trace data. -/
structure TraceRecord where
  trace_id : Nat
  data : TraceData

/-- The server-side trace store: `workbook_trace` rows in insertion order. -/
abbrev TraceStore : Type := List TraceRecord

/-- The error taxonomy of the trace endpoints. -/
inductive TraceError where
  | modelNotFound
deriving DecidableEq, Repr

/-- Modelled from the spec: the backend create-trace handler
(`backend/main.py`, absent from the source tree).  Rejects with
ModelNotFound when `trace.model_id` has no `workbook_model` row, leaving
both stores untouched; otherwise appends a `workbook_trace` row with the
next `trace_id`. -/
def TraceStore.append (ms : ModelStore) (ts : TraceStore) (t : TraceData) :
    Except TraceError Unit × ModelStore × TraceStore :=
  match ModelStore.findModel ms t.model_id with
  | none => (Except.error TraceError.modelNotFound, ms, ts)
  | some _ => (Except.ok (), ms, ts ++ [{ trace_id := ts.length + 1, data := t }])

/-- A concrete cell value used as test input. -/
def sampleValue : CellValue := CellValue.num 500

/-- A concrete trace payload used as test input. -/
def sampleTraceData : TraceData :=
  { model_id := "m1", timestamp := "2026-01-01T00:00:00Z",
    tracked_range_name := "Revenue", username := "alice",
    value := sampleValue }

/-- A concrete workbook model used as test input. -/
def sampleModel : WorkbookModel :=
  { model_id := "m1", model_name := "Budget", tracked_ranges := p6Ranges,
    version := 1 }

/-- The producer state right after a network failure queued one trace:
one pending record, online flag false. -/
def offlineState : ProducerState :=
  { traceQueue := [{ data := sampleTraceData, queuedAt := "q0" }],
    isOnline := false }

/-- A producer state with an empty queue and the online flag true. -/
def sampleOnlineState : ProducerState :=
  { traceQueue := [], isOnline := true }

/-- A tracked-range list on which the resolver finds a match in second
position, used as test input. -/
def c4Ranges : List TrackedRange :=
  [{ name := "A", range := "A1:A5" }, { name := "B", range := "B1:B9" }]

/-- 101 concrete enqueue events, used as test input. -/
def c5Records : List (TraceData × String) :=
  (List.range 101).map
    (fun i => ({ sampleTraceData with tracked_range_name := toString i }, "q"))

/-- A one-record queue, used as test input. -/
def c9QueueA : List QueuedTrace :=
  [{ data := sampleTraceData, queuedAt := "qa" }]

/-- A queue whose sole record differs from the one of `c9QueueA` in its
per-trace timestamp, username and enqueue stamp but agrees on range name
and value. -/
def c9QueueB : List QueuedTrace :=
  [{ data :=
      { model_id := "m1", timestamp := "2026-02-02T00:00:00Z",
        tracked_range_name := "Revenue", username := "someone-else",
        value := sampleValue },
     queuedAt := "qb" }]

/-- Three concrete upsert payloads with differing content and
caller-supplied version fields, used as test input. -/
def c1Payloads : List UpsertPayload :=
  [{ model_name := "Budget",
     tracked_ranges := [{ name := "Revenue", range := "Sheet1!A1:A10" }],
     version := some 99 },
   { model_name := "Budget v2", tracked_ranges := p6Ranges, version := none },
   { model_name := "Budget v3", tracked_ranges := [], version := some 0 }]

/-- A model fetch that would succeed but only settles after 20 seconds. -/
def slowModelTransport : Transport WorkbookModel :=
  { result := TransportResult.response 200 sampleModel, duration := 20000 }

/-- A trace fetch that would succeed but only settles after 20 seconds. -/
def slowTraceTransport : Transport TraceResponse :=
  { result := TransportResult.response 200 { success := true },
    duration := 20000 }

theorem listStartsWith_iff {α : Type} [DecidableEq α] :
    ∀ (l pat : List α), listStartsWith l pat = true ↔ ∃ post, l = pat ++ post := by
  intro l
  induction l with
  | nil =>
    intro pat
    cases pat with
    | nil => simp [listStartsWith]
    | cons b bs => simp [listStartsWith]
  | cons a as ih =>
    intro pat
    cases pat with
    | nil => simp [listStartsWith]
    | cons b bs =>
      simp only [listStartsWith]
      constructor
      · intro h
        by_cases hab : a = b
        · simp [hab] at h
          obtain ⟨post, hpost⟩ := (ih bs).mp h
          exact ⟨post, by simp [hab, hpost]⟩
        · simp [hab] at h
      · rintro ⟨post, hpost⟩
        simp only [List.cons_append, List.cons.injEq] at hpost
        obtain ⟨hab, hrest⟩ := hpost
        simp [hab, (ih bs).mpr ⟨post, hrest⟩]

theorem listIncludes_iff {α : Type} [DecidableEq α] :
    ∀ (l pat : List α), listIncludes l pat = true ↔ SubstringOf pat l := by
  intro l
  induction l with
  | nil =>
    intro pat
    constructor
    · intro h
      cases pat with
      | nil => exact ⟨[], [], rfl⟩
      | cons b bs => simp [listIncludes, List.isEmpty] at h
    · rintro ⟨pre, post, hsplit⟩
      have hpre : pre = [] := by
        cases pre with
        | nil => rfl
        | cons x xs => simp at hsplit
      subst hpre
      have hpat : pat = [] := by
        cases pat with
        | nil => rfl
        | cons x xs => simp at hsplit
      subst hpat
      simp [listIncludes, List.isEmpty]
  | cons a as ih =>
    intro pat
    simp only [listIncludes, Bool.or_eq_true]
    constructor
    · intro h
      cases h with
      | inl h =>
        obtain ⟨post, hpost⟩ := (listStartsWith_iff (a :: as) pat).mp h
        exact ⟨[], post, by simp [hpost]⟩
      | inr h =>
        obtain ⟨pre, post, hsplit⟩ := (ih pat).mp h
        exact ⟨a :: pre, post, by simp [hsplit]⟩
    · rintro ⟨pre, post, hsplit⟩
      cases pre with
      | nil =>
        left
        exact (listStartsWith_iff (a :: as) pat).mpr ⟨post, by simpa using hsplit⟩
      | cons x xs =>
        right
        simp only [List.cons_append, List.cons.injEq] at hsplit
        exact (ih pat).mpr ⟨xs, post, hsplit.2⟩

theorem trMatches_iff (address : String) (tr : TrackedRange) :
    trMatches address tr = true ↔ RangeMatchSpec address tr := by
  simp only [trMatches, Bool.or_eq_true, RangeMatchSpec, jsIncludes,
    SubstringOfStr]
  constructor
  · rintro (h | h)
    · exact Or.inl ((listIncludes_iff _ _).mp h)
    · exact Or.inr ((listIncludes_iff _ _).mp h)
  · rintro (h | h)
    · exact Or.inl ((listIncludes_iff _ _).mpr h)
    · exact Or.inr ((listIncludes_iff _ _).mpr h)

theorem find?_first {α : Type} (p : α → Bool) :
    ∀ (l : List α) (a : α), l.find? p = some a →
      p a = true ∧ ∃ i, ∃ h : i < l.length, l.get ⟨i, h⟩ = a ∧
        ∀ j, ∀ hj : j < l.length, j < i → p (l.get ⟨j, hj⟩) = false := by
  intro l
  induction l with
  | nil => intro a h; simp [List.find?] at h
  | cons x xs ih =>
    intro a h
    cases hpx : p x with
    | true =>
      rw [List.find?] at h
      rw [hpx] at h
      cases h
      refine ⟨hpx, 0, by simp, rfl, ?_⟩
      intro j hj hj0
      omega
    | false =>
      rw [List.find?] at h
      rw [hpx] at h
      obtain ⟨hpa, i, hi, hget, hfirst⟩ := ih a h
      refine ⟨hpa, i + 1, by simpa using Nat.succ_lt_succ hi, hget, ?_⟩
      intro j hj hji
      cases j with
      | zero => exact hpx
      | succ k =>
        have hk : k < xs.length := by simpa using Nat.lt_of_succ_lt_succ hj
        have := hfirst k hk (Nat.lt_of_succ_lt_succ hji)
        simpa using this

/-- C3 fails on the code: with the tracked-range list of P6, resolving
address Sheet1!A3 does not return the range named A.  The bidirectional
substring test matches neither tracked range (Sheet1!A3 is not a lexical
substring of Sheet1!A1:A5, nor conversely), so the resolver returns none. -/
theorem c3_counterexample :
    findTrackedRange "Sheet1!A3" p6Ranges = none ∧
    findTrackedRange "Sheet1!A3" p6Ranges ≠
      some { name := "A", range := "Sheet1!A1:A5" } := by
  refine ⟨by decide, ?_⟩
  intro h
  rw [show findTrackedRange "Sheet1!A3" p6Ranges = none by decide] at h
  exact Option.noConfusion h

/-- C3 (amended): with the tracked-range list of P6, resolving Sheet1!A3
returns none (the substring containment test matches neither range) and
resolving Sheet1!C1 returns none. -/
theorem c3_amended :
    findTrackedRange "Sheet1!A3" p6Ranges = none ∧
    findTrackedRange "Sheet1!C1" p6Ranges = none := by
  exact ⟨by decide, by decide⟩

/-- C4: for every address and tracked-range list, the resolver returns the
first tracked range in list order whose address string textually contains
the changed address or is textually contained in it, and returns none
exactly when no tracked range in the list passes this containment test. -/
theorem c4_resolve_first_substring_match (address : String)
    (trs : List TrackedRange) :
    (findTrackedRange address trs = none ↔
      ∀ tr ∈ trs, ¬ RangeMatchSpec address tr)
  ∧ ∀ tr, findTrackedRange address trs = some tr →
      RangeMatchSpec address tr ∧
      ∃ i, ∃ h : i < trs.length, trs.get ⟨i, h⟩ = tr ∧
        ∀ j, ∀ hj : j < trs.length, j < i →
          ¬ RangeMatchSpec address (trs.get ⟨j, hj⟩) := by
  constructor
  · rw [findTrackedRange, List.find?_eq_none]
    constructor
    · intro h tr htr hm
      exact h tr htr ((trMatches_iff address tr).mpr hm)
    · intro h tr htr hm
      exact h tr htr ((trMatches_iff address tr).mp hm)
  · intro tr h
    obtain ⟨hp, i, hi, hget, hfirst⟩ := find?_first (trMatches address) trs tr h
    refine ⟨(trMatches_iff address tr).mp hp, i, hi, hget, ?_⟩
    intro j hj hji hm
    have hfalse := hfirst j hj hji
    rw [(trMatches_iff address _).mpr hm] at hfalse
    exact Bool.noConfusion hfalse

/-- C4 witness: on a concrete list the resolver picks the second range,
the first one failing the containment test. -/
theorem c4_witness :
    RangeMatchSpec "B1" { name := "B", range := "B1:B9" } ∧
    ∃ i, ∃ h : i < c4Ranges.length,
      c4Ranges.get ⟨i, h⟩ = { name := "B", range := "B1:B9" } ∧
      ∀ j, ∀ hj : j < c4Ranges.length, j < i →
        ¬ RangeMatchSpec "B1" (c4Ranges.get ⟨j, hj⟩) :=
  (c4_resolve_first_substring_match "B1" c4Ranges).2
    { name := "B", range := "B1:B9" } (by decide)

theorem queueTraceLocally_length_le (q : List QueuedTrace) (t : TraceData)
    (now : String) (h : q.length ≤ 100) :
    (queueTraceLocally q t now).length ≤ 100 := by
  simp only [queueTraceLocally]
  split
  · next hgt =>
    simp only [List.length_tail, List.length_append, List.length_cons,
      List.length_nil] at hgt ⊢
    omega
  · next hng =>
    simp only [List.length_append, List.length_cons, List.length_nil] at hng ⊢
    omega

theorem enqueueAll_drop (rs : List (TraceData × String)) :
    ∀ q : List QueuedTrace, q.length ≤ 100 →
      enqueueAll q rs =
        (q ++ rs.map mkQueued).drop (q.length + rs.length - 100) := by
  induction rs with
  | nil =>
    intro q h
    simp only [enqueueAll, List.map_nil, List.append_nil, List.length_nil,
      Nat.add_zero]
    rw [Nat.sub_eq_zero_of_le h, List.drop_zero]
  | cons p rest ih =>
    obtain ⟨t, now⟩ := p
    intro q h
    have hunfold : enqueueAll q ((t, now) :: rest) =
        enqueueAll (queueTraceLocally q t now) rest := rfl
    have hstep : queueTraceLocally q t now =
        if (q ++ [mkQueued (t, now)]).length > 100
        then (q ++ [mkQueued (t, now)]).tail
        else q ++ [mkQueued (t, now)] := rfl
    by_cases hlen : q.length < 100
    · have hno : ¬ ((q ++ [mkQueued (t, now)]).length > 100) := by
        simp only [List.length_append, List.length_cons, List.length_nil]
        omega
      rw [hunfold, hstep, if_neg hno,
        ih (q ++ [mkQueued (t, now)])
          (by simp only [List.length_append, List.length_cons,
                List.length_nil]; omega)]
      simp only [List.length_append, List.length_cons, List.length_nil,
        List.map_cons, List.append_assoc, List.singleton_append]
      congr 1
      omega
    · have h100 : q.length = 100 := by omega
      cases q with
      | nil => simp at h100
      | cons qh qt =>
        have hqt : qt.length = 99 := by
          simp only [List.length_cons] at h100
          omega
        have hyes : ((qh :: qt) ++ [mkQueued (t, now)]).length > 100 := by
          simp only [List.length_append, List.length_cons, List.length_nil]
          omega
        rw [hunfold, hstep, if_pos hyes]
        have htail : ((qh :: qt) ++ [mkQueued (t, now)]).tail =
            qt ++ [mkQueued (t, now)] := by
          simp
        rw [htail,
          ih (qt ++ [mkQueued (t, now)])
            (by simp only [List.length_append, List.length_cons,
                  List.length_nil]; omega)]
        have hidx : (qh :: qt).length + ((t, now) :: rest).length - 100 =
            rest.length + 1 := by
          simp only [List.length_cons]
          omega
        have hidx2 : (qt ++ [mkQueued (t, now)]).length + rest.length - 100 =
            rest.length := by
          simp only [List.length_append, List.length_cons, List.length_nil]
          omega
        rw [hidx2, hidx]
        simp only [List.map_cons, List.cons_append, List.append_assoc,
          List.singleton_append, List.drop_succ_cons, List.nil_append]

/-- C5: pushing 101 records through queueTraceLocally starting from an
empty queue leaves exactly the 100 newest records in original relative
order (only the oldest is evicted), and after every enqueue the queue
holds at most 100 records. -/
theorem c5_fifo_eviction (rs : List (TraceData × String))
    (h : rs.length = 101) :
    enqueueAll [] rs = (rs.map mkQueued).tail
  ∧ ∀ k, (enqueueAll [] (rs.take k)).length ≤ 100 := by
  constructor
  · have hd := enqueueAll_drop rs [] (by simp)
    simp only [List.nil_append, List.length_nil, Nat.zero_add] at hd
    rw [hd, h, show (101 : Nat) - 100 = 1 from rfl, List.drop_one]
  · intro k
    have hd := enqueueAll_drop (rs.take k) [] (by simp)
    simp only [List.nil_append, List.length_nil, Nat.zero_add] at hd
    rw [hd]
    simp only [List.length_drop, List.length_map, List.length_take]
    omega

/-- C5 witness: 101 concrete records; the result is the mapped tail and a
sampled post-enqueue length stays within the bound. -/
theorem c5_witness :
    enqueueAll [] c5Records = (c5Records.map mkQueued).tail ∧
    (enqueueAll [] (c5Records.take 101)).length ≤ 100 :=
  ⟨(c5_fifo_eviction c5Records (by simp [c5Records])).1,
   (c5_fifo_eviction c5Records (by simp [c5Records])).2 101⟩

/-- C6: evaluation at the failing state.  With one queued trace and the
online flag false (exactly the state createTrace leaves behind after a
network failure), flushTraceQueue attempts no delivery and leaves the
state unchanged, because of its early return when isOnline is false; so
the 30-second timer retry scheduled by queueTraceLocally never attempts
batch delivery while the producer is offline, against the stated flush
behaviour and the retry comment in the source. -/
theorem c6_flush_offline_noop :
    flushTraceQueue offlineState (TransportResult.response 200 ()) =
      (false, offlineState) ∧
    offlineState.traceQueue.length = 1 ∧
    offlineState.isOnline = false :=
  ⟨rfl, rfl, rfl⟩

/-- C7 fails on the code: a 404 for an unknown model id and a transport
failure produce the same producer-side outcome, null.  At a concrete
input both loads return none, so the caller cannot distinguish them. -/
theorem c7_counterexample :
    loadModel { result := TransportResult.response 404 sampleModel,
                duration := 0 } =
      loadModel { result := TransportResult.failure, duration := 0 } ∧
    loadModel { result := TransportResult.failure, duration := 0 } = none :=
  ⟨rfl, rfl⟩

/-- C7 (amended): the producer-side load returns none both for an unknown
model id (HTTP 404) and on transport failure; NotFound is distinguished
from transport errors only inside the function (by HTTP status, for
logging), not in the outcome the caller receives. -/
theorem c7_notfound_indistinguishable (m : WorkbookModel) (d : Nat) :
    loadModel { result := TransportResult.response 404 m, duration := d } =
      none ∧
    loadModel { result := TransportResult.failure, duration := d } = none := by
  refine ⟨?_, ?_⟩ <;> by_cases hd : API_TIMEOUT ≤ d <;>
    simp [loadModel, fetchWithTimeout, hd]

/-- C8 fails on the code: createModelTrace issues a plain fetch with no
timeout race, so a single-trace call whose transport needs 20 seconds is
still accepted as a success, while the batch variant on the same
transport is treated as failed by the 10-second timeout. -/
theorem c8_counterexample :
    createModelTrace slowTraceTransport = { success := true } ∧
    createModelTraceBatch slowTraceTransport = { success := false } :=
  ⟨rfl, rfl⟩

/-- C8 (amended): upsert-model, load-model and create-trace-batch in the
API client apply the 10-second timeout and treat an overdue call as
failed; single-trace create-trace applies no timeout (its outcome is
independent of the transport duration); and a trace whose delivery fails
at transport level is enqueued for later retry by the background script's
createTrace. -/
theorem c8_timeout_coverage (tm : Transport WorkbookModel)
    (tb : Transport TraceResponse) (hm : API_TIMEOUT ≤ tm.duration)
    (hb : API_TIMEOUT ≤ tb.duration) :
    upsertModelApi tm = Except.error () ∧
    loadModel tm = none ∧
    createModelTraceBatch tb = { success := false } ∧
    (∀ (r : TransportResult TraceResponse) (d d' : Nat),
      createModelTrace { result := r, duration := d } =
        createModelTrace { result := r, duration := d' }) ∧
    (∀ (st : ProducerState) (td : TraceData) (now : String)
        (flushR : TransportResult Unit),
      (createTrace st td now TransportResult.failure flushR).1 = false ∧
      (createTrace st td now TransportResult.failure flushR).2.traceQueue =
        queueTraceLocally st.traceQueue td now) := by
  refine ⟨?_, ?_, ?_, ?_, ?_⟩
  · simp only [upsertModelApi, fetchWithTimeout, if_pos hm]
  · simp only [loadModel, fetchWithTimeout, if_pos hm]
  · simp only [createModelTraceBatch, fetchWithTimeout, if_pos hb]
  · intro r d d'
    rfl
  · intro st td now flushR
    exact ⟨rfl, rfl⟩

/-- C8 witness: a 20-second transport is beyond the timeout; the amended
behaviour holds there. -/
theorem c8_witness :
    API_TIMEOUT ≤ slowModelTransport.duration ∧
    (upsertModelApi slowModelTransport = Except.error () ∧
     loadModel slowModelTransport = none ∧
     createModelTraceBatch slowTraceTransport = { success := false } ∧
     (∀ (r : TransportResult TraceResponse) (d d' : Nat),
       createModelTrace { result := r, duration := d } =
         createModelTrace { result := r, duration := d' }) ∧
     (∀ (st : ProducerState) (td : TraceData) (now : String)
         (flushR : TransportResult Unit),
       (createTrace st td now TransportResult.failure flushR).1 = false ∧
       (createTrace st td now TransportResult.failure flushR).2.traceQueue =
         queueTraceLocally st.traceQueue td now)) :=
  ⟨by decide,
   c8_timeout_coverage slowModelTransport slowTraceTransport (by decide)
     (by decide)⟩

/-- C9: the batch body built by flushTraceQueue depends only on each
queued trace's range name and value - two queues with equal projections
yield identical bodies, so the per-trace timestamps and usernames
captured at observation time are discarded - and the whole batch carries
the flush-time timestamp and the producer's current username. -/
theorem c9_batch_payload_discards_metadata (modelId now user : String)
    (l1 l2 : List QueuedTrace)
    (h : l1.map batchChangeOf = l2.map batchChangeOf) :
    flushBatchPayload modelId now user l1 =
      flushBatchPayload modelId now user l2 ∧
    (flushBatchPayload modelId now user l1).timestamp = now ∧
    (flushBatchPayload modelId now user l1).username = user ∧
    (flushBatchPayload modelId now user l1).changes = l1.map batchChangeOf := by
  refine ⟨?_, rfl, rfl, rfl⟩
  simp only [flushBatchPayload, h]

/-- C9 witness: two concrete one-record queues differing in per-trace
timestamp, username and enqueue stamp produce the same batch body. -/
theorem c9_witness :
    flushBatchPayload "m1" "2026-03-03T00:00:00Z" "bob" c9QueueA =
      flushBatchPayload "m1" "2026-03-03T00:00:00Z" "bob" c9QueueB ∧
    (flushBatchPayload "m1" "2026-03-03T00:00:00Z" "bob" c9QueueA).timestamp =
      "2026-03-03T00:00:00Z" ∧
    (flushBatchPayload "m1" "2026-03-03T00:00:00Z" "bob" c9QueueA).username =
      "bob" ∧
    (flushBatchPayload "m1" "2026-03-03T00:00:00Z" "bob" c9QueueA).changes =
      c9QueueA.map batchChangeOf :=
  c9_batch_payload_discards_metadata "m1" "2026-03-03T00:00:00Z" "bob"
    c9QueueA c9QueueB rfl

/-- C10: an HTTP error response (response not ok, e.g. 404 or 500) makes
createTrace return false with the state untouched - the trace is dropped,
not queued - while a transport failure (the fetch throwing) returns false
with the trace queued locally and the online flag cleared. -/
theorem c10_http_error_drops_trace (st : ProducerState) (td : TraceData)
    (now : String) (flushR : TransportResult Unit) :
    (∀ (status : Nat) (body : Unit), responseOk status = false →
      createTrace st td now (TransportResult.response status body) flushR =
        (false, st)) ∧
    createTrace st td now TransportResult.failure flushR =
      (false, { traceQueue := queueTraceLocally st.traceQueue td now,
                isOnline := false }) := by
  constructor
  · intro status body hstatus
    simp only [createTrace, hstatus, Bool.false_eq_true, if_false]
  · rfl

/-- C10 witness: a concrete 404 response drops the trace without touching
the state. -/
theorem c10_witness :
    responseOk 404 = false ∧
    createTrace sampleOnlineState sampleTraceData "now"
        (TransportResult.response 404 ()) TransportResult.failure =
      (false, sampleOnlineState) :=
  ⟨by decide,
   (c10_http_error_drops_trace sampleOnlineState sampleTraceData "now"
     TransportResult.failure).1 404 () (by decide)⟩

theorem findModel_append_self (store : ModelStore) (mid : String)
    (m : WorkbookModel) (hm : m.model_id = mid)
    (h : ModelStore.findModel store mid = none) :
    ModelStore.findModel (store ++ [m]) mid = some m := by
  rw [ModelStore.findModel] at h ⊢
  rw [List.find?_append, h, Option.none_or]
  rw [List.find?_cons_of_pos _ (by simp [hm])]

theorem findModel_map_replace (mid : String) (m : WorkbookModel)
    (hm : m.model_id = mid) :
    ∀ (store : ModelStore) (ex : WorkbookModel),
      ModelStore.findModel store mid = some ex →
      ModelStore.findModel
        (store.map (fun x => if x.model_id = mid then m else x)) mid =
        some m := by
  intro store
  induction store with
  | nil =>
    intro ex h
    simp [ModelStore.findModel, List.find?] at h
  | cons a as ih =>
    intro ex h
    by_cases ha : a.model_id = mid
    · rw [ModelStore.findModel, List.map_cons, if_pos ha,
        List.find?_cons_of_pos _ (by simp [hm])]
    · rw [ModelStore.findModel] at h
      rw [List.find?_cons_of_neg _ (by simp [ha])] at h
      rw [ModelStore.findModel, List.map_cons, if_neg ha,
        List.find?_cons_of_neg _ (by simp [ha])]
      exact ih ex h

theorem upsert_version_step (store : ModelStore) (mid fresh : String)
    (p : UpsertPayload) :
    (ModelStore.upsert store
      { model_name := p.model_name, tracked_ranges := p.tracked_ranges,
        model_id := some mid, version := p.version } fresh).1.version =
      (verOf store mid).getD 0 + 1 ∧
    verOf (ModelStore.upsert store
      { model_name := p.model_name, tracked_ranges := p.tracked_ranges,
        model_id := some mid, version := p.version } fresh).2 mid =
      some ((verOf store mid).getD 0 + 1) := by
  cases hfind : ModelStore.findModel store mid with
  | none =>
    constructor
    · simp [ModelStore.upsert, hfind, verOf]
    · have happ := findModel_append_self store mid
        { model_id := mid, model_name := p.model_name,
          tracked_ranges := p.tracked_ranges, version := 1 } rfl hfind
      simp [ModelStore.upsert, hfind, verOf, happ]
  | some ex =>
    constructor
    · simp [ModelStore.upsert, hfind, verOf]
    · have hrep := findModel_map_replace mid
        { model_id := mid, model_name := p.model_name,
          tracked_ranges := p.tracked_ranges, version := ex.version + 1 }
        rfl store ex hfind
      simp [ModelStore.upsert, hfind, verOf, hrep]

theorem runUpserts_spec (mid : String) :
    ∀ (ps : List UpsertPayload) (store : ModelStore),
      (runUpserts store mid ps).1 =
        List.range' ((verOf store mid).getD 0 + 1) ps.length ∧
      (ps ≠ [] → verOf (runUpserts store mid ps).2 mid =
        some ((verOf store mid).getD 0 + ps.length)) := by
  intro ps
  induction ps with
  | nil =>
    intro store
    exact ⟨by simp [runUpserts, List.range'], fun hne => absurd rfl hne⟩
  | cons p rest ih =>
    intro store
    obtain ⟨hv, hs⟩ := upsert_version_step store mid "unused-fresh-id" p
    have hrun : runUpserts store mid (p :: rest) =
        ((ModelStore.upsert store
          { model_name := p.model_name, tracked_ranges := p.tracked_ranges,
            model_id := some mid, version := p.version }
          "unused-fresh-id").1.version ::
          (runUpserts (ModelStore.upsert store
            { model_name := p.model_name, tracked_ranges := p.tracked_ranges,
              model_id := some mid, version := p.version }
            "unused-fresh-id").2 mid rest).1,
         (runUpserts (ModelStore.upsert store
            { model_name := p.model_name, tracked_ranges := p.tracked_ranges,
              model_id := some mid, version := p.version }
            "unused-fresh-id").2 mid rest).2) := rfl
    obtain ⟨ihv, ihs⟩ := ih (ModelStore.upsert store
      { model_name := p.model_name, tracked_ranges := p.tracked_ranges,
        model_id := some mid, version := p.version } "unused-fresh-id").2
    constructor
    · rw [hrun]
      simp only [List.length_cons]
      rw [List.range'_succ]
      rw [hv, ihv, hs]
      simp
    · intro _
      rw [hrun]
      cases rest with
      | nil =>
        simp only [runUpserts]
        rw [hs]
        simp
      | cons q qs =>
        have hne : q :: qs ≠ ([] : List UpsertPayload) := by simp
        have := ihs hne
        rw [this, hs]
        simp only [Option.getD_some, List.length_cons]
        congr 1
        omega

/-- C1: starting from any store holding no row for the given model id, a
sequence of N upsert-model calls against that id returns version values
exactly 1, 2, ..., N regardless of the payload contents and of any
caller-supplied version fields, and leaves version N persisted for that
id. -/
theorem c1_upsert_versions_monotone (store : ModelStore) (mid : String)
    (ps : List UpsertPayload)
    (h : ModelStore.findModel store mid = none) :
    (runUpserts store mid ps).1 = List.range' 1 ps.length ∧
    (ps ≠ [] → verOf (runUpserts store mid ps).2 mid = some ps.length) := by
  have hv : verOf store mid = none := by rw [verOf, h]; rfl
  obtain ⟨h1, h2⟩ := runUpserts_spec mid ps store
  rw [hv] at h1 h2
  simp only [Option.getD_none, Nat.zero_add] at h1 h2
  exact ⟨h1, h2⟩

/-- C1 witness: three concrete upserts with differing payloads and
caller-supplied versions 99, none and 0 return versions 1, 2, 3 and leave
version 3 stored. -/
theorem c1_witness :
    ModelStore.findModel ([] : ModelStore) "m1" = none ∧
    (runUpserts ([] : ModelStore) "m1" c1Payloads).1 =
      List.range' 1 c1Payloads.length ∧
    verOf (runUpserts ([] : ModelStore) "m1" c1Payloads).2 "m1" =
      some c1Payloads.length :=
  ⟨rfl,
   (c1_upsert_versions_monotone [] "m1" c1Payloads rfl).1,
   (c1_upsert_versions_monotone [] "m1" c1Payloads rfl).2
     (by simp [c1Payloads])⟩

/-- C2: create-trace with a model id that has no row in the model store
fails with ModelNotFound and performs no store mutation: both the model
store and the trace store come back unchanged. -/
theorem c2_create_trace_unknown_model (ms : ModelStore) (ts : TraceStore)
    (t : TraceData) (h : ModelStore.findModel ms t.model_id = none) :
    TraceStore.append ms ts t =
      (Except.error TraceError.modelNotFound, ms, ts) := by
  simp [TraceStore.append, h]

/-- C2 witness: creating a trace against an empty model store fails with
ModelNotFound and leaves both stores empty. -/
theorem c2_witness :
    ModelStore.findModel ([] : ModelStore) sampleTraceData.model_id = none ∧
    TraceStore.append ([] : ModelStore) ([] : TraceStore) sampleTraceData =
      (Except.error TraceError.modelNotFound, ([] : ModelStore),
       ([] : TraceStore)) :=
  ⟨rfl, c2_create_trace_unknown_model [] [] sampleTraceData rfl⟩
